import Mathlib

/-!
Verification of the rop expression engine (tokenizer, precedence-climbing
parser, evaluator, overload registry) against its specification.

The development is a shallow embedding of the TypeScript sources:
host numbers are embedded as `Int` (every input exercised here is integral);
host floating-point constants are kept opaque (carried by their literal);
host objects and functions are identified by `Nat` ids resolved through an
explicit environment; JS `Map`s become association lists.  Fallible code
returns `Except String` / `Option`.  Loops whose bound is data-dependent are
written with an explicit fuel argument that dominates the iteration count, so
that every definition stays executable.
-/

set_option maxHeartbeats 1000000

namespace RopV

/-- Runtime host values flowing through the evaluator.  `vobj`/`vfun` are
host objects and functions identified by an id resolved in an `Env`;
`vopaque` stands for host values whose internal structure the embedding does
not model (e.g. results of unexercised native operations); `vslices` is the
array-of-slice-records argument passed to a slicing overload. -/
inductive Value where
  | vnum (n : Int)
  | vbig (n : Int)
  | vfloat (lit : String)
  | vstr (s : String)
  | vbool (b : Bool)
  | vnull
  | vundefined
  | vobj (id : Nat)
  | vfun (id : Nat)
  | vopaque (tag : String)
  | vslices (dims : List (Option Value × Option Value × Option Value))
deriving Repr

/-- Decoded value of a Constant token: integer, big-integer, float (kept
opaque via its literal, mirroring the host parseFloat), or string. -/
inductive ConstVal where
  | cint (n : Int)
  | cbig (n : Int)
  | cfloat (lit : String)
  | cstr (s : String)
deriving DecidableEq, Repr

/-- Tokens emitted by the Tokenizer (Token.ts).  The type is parametric in
the embedded host-value type: the scanner itself never constructs an
`embedded` token, they are only inserted between template fragments.
The source stores a fixed placeholder literal on embedded tokens; it carries
no information and is omitted. -/
inductive Token (α : Type) where
  | whitespace (literal : String)
  | operator (literal : String)
  | embedded (value : α)
  | constant (literal : String) (value : ConstVal)
  | identifier (literal : String)
  | punctuation (literal : Char)
deriving DecidableEq, Repr

namespace Tokenizer

/-- JS whitespace class `\s` restricted to the ASCII range that the test
inputs exercise. -/
def isJsWhitespace (c : Char) : Bool :=
  c = ' ' || c = '\t' || c = '\n' || c = '\r' || c.toNat = 11 || c.toNat = 12

def isDigitCh (c : Char) : Bool := c.isDigit

def isHexDigitCh (c : Char) : Bool :=
  c.isDigit || ('a' ≤ c && c ≤ 'f') || ('A' ≤ c && c ≤ 'F')

def hexDigitVal (c : Char) : Nat :=
  if c.isDigit then c.toNat - '0'.toNat
  else if 'a' ≤ c && c ≤ 'f' then c.toNat - 'a'.toNat + 10
  else c.toNat - 'A'.toNat + 10

def hexVal (cs : List Char) : Nat :=
  cs.foldl (fun a c => a * 16 + hexDigitVal c) 0

def decDigitsVal (cs : List Char) : Nat :=
  cs.foldl (fun a c => a * 10 + (c.toNat - '0'.toNat)) 0

/-- The brace characters, referenced by code point. -/
def lbrace : Char := Char.ofNat 123

def rbrace : Char := Char.ofNat 125

/-- The two quote characters, referenced by code point to keep them out of
character-literal syntax. -/
def squote : Char := Char.ofNat 39

def dquote : Char := Char.ofNat 34

def backslash : Char := Char.ofNat 92

/-- String.fromCodePoint: fails (RangeError) above 0x10FFFF; lone surrogates
are not representable as a Lean `Char` and are likewise mapped to failure. -/
def codePointChar (n : Nat) : Option Char :=
  if n < 0xD800 || (0xE000 ≤ n && n ≤ 0x10FFFF) then some (Char.ofNat n) else none

/-- First pass of Tokenizer.parseUnicodeEscapes: replace each occurrence of
backslash-u followed by at least four hex digits (greedy) by the decoded
code point. -/
def uEscapePass1 : Nat → List Char → Option (List Char)
  | _, [] => some []
  | 0, _ => none
  | f + 1, c :: cs =>
    if c = backslash then
      match cs with
      | 'u' :: cs' =>
        let hex := cs'.takeWhile isHexDigitCh
        let rest := cs'.dropWhile isHexDigitCh
        if 4 ≤ hex.length then do
          let ch ← codePointChar (hexVal hex)
          let tail ← uEscapePass1 f rest
          some (ch :: tail)
        else do
          let tail ← uEscapePass1 f cs
          some (c :: tail)
      | _ => do
        let tail ← uEscapePass1 f cs
        some (c :: tail)
    else do
      let tail ← uEscapePass1 f cs
      some (c :: tail)

/-- Second pass: replace backslash-u-brace hexdigits-brace occurrences. -/
def uEscapePass2 : Nat → List Char → Option (List Char)
  | _, [] => some []
  | 0, _ => none
  | f + 1, c :: cs =>
    if c = backslash then
      match cs with
      | 'u' :: b :: cs' =>
        if b = lbrace then
          let hex := cs'.takeWhile isHexDigitCh
          let rest := cs'.dropWhile isHexDigitCh
          match rest with
          | r :: rest' =>
            if 4 ≤ hex.length && r = rbrace then do
              let ch ← codePointChar (hexVal hex)
              let tail ← uEscapePass2 f rest'
              some (ch :: tail)
            else do
              let tail ← uEscapePass2 f cs
              some (c :: tail)
          | [] => do
            let tail ← uEscapePass2 f cs
            some (c :: tail)
        else do
          let tail ← uEscapePass2 f cs
          some (c :: tail)
      | _ => do
        let tail ← uEscapePass2 f cs
        some (c :: tail)
    else do
      let tail ← uEscapePass2 f cs
      some (c :: tail)

def parseUnicodeEscapes (cs : List Char) : Option (List Char) := do
  let cs1 ← uEscapePass1 (cs.length + 1) cs
  uEscapePass2 (cs1.length + 1) cs1

def isPunctuationCh (c : Char) : Bool :=
  c = '(' || c = ')' || c = '[' || c = ']' || c = lbrace || c = rbrace ||
  c = ',' || c = ':' || c = '.'

def isSingleOpCh (c : Char) : Bool :=
  c = '+' || c = '-' || c = '*' || c = '/' || c = '%' || c = '&' ||
  c = '|' || c = '^' || c = '<' || c = '>' || c = '!' || c = '~'

/-- Operator recognition, in the exact alternation order of the source
regex (first matching alternative wins). -/
def matchOperator (cs : List Char) : Option (String × List Char) :=
  match cs with
  | '<' :: '=' :: r => some ("<=", r)
  | '>' :: '=' :: r => some (">=", r)
  | '=' :: '=' :: '=' :: r => some ("===", r)
  | '!' :: '=' :: '=' :: r => some ("!==", r)
  | '=' :: '=' :: r => some ("==", r)
  | '!' :: '=' :: r => some ("!=", r)
  | '*' :: '*' :: r => some ("**", r)
  | '>' :: '>' :: '>' :: r => some (">>>", r)
  | '>' :: '>' :: r => some (">>", r)
  | '<' :: '<' :: r => some ("<<", r)
  | '&' :: '&' :: r => some ("&&", r)
  | '|' :: '|' :: r => some ("||", r)
  | c :: r => if isSingleOpCh c then some (String.mk [c], r) else none
  | [] => none

/-- Matches the numeric-literal regex (digits* dot? digits+ exponent? n?),
with the backtracking behaviour of the greedy groups: the dot is part of the
match only when followed by a digit, the exponent only when its digits are
present. -/
def matchNumber (cs : List Char) : Option (String × ConstVal × List Char) :=
  let d1 := cs.takeWhile isDigitCh
  let r1 := cs.dropWhile isDigitCh
  let core : Option (List Char × Bool × List Char) :=
    match r1 with
    | '.' :: r2 =>
      let d2 := r2.takeWhile isDigitCh
      if d2 = [] then
        if d1 = [] then none else some (d1, false, r1)
      else
        some (d1 ++ '.' :: d2, true, r2.dropWhile isDigitCh)
    | _ => if d1 = [] then none else some (d1, false, r1)
  match core with
  | none => none
  | some (lit1, hasDot, r3) =>
    let (lit2, hasExp, r4) :=
      match r3 with
      | e :: r3' =>
        if e = 'e' || e = 'E' then
          match r3' with
          | s :: r3'' =>
            if s = '+' || s = '-' then
              let ed := r3''.takeWhile isDigitCh
              if ed = [] then (lit1, false, r3)
              else (lit1 ++ e :: s :: ed, true, r3''.dropWhile isDigitCh)
            else
              let ed := r3'.takeWhile isDigitCh
              if ed = [] then (lit1, false, r3)
              else (lit1 ++ e :: ed, true, r3'.dropWhile isDigitCh)
          | [] => (lit1, false, r3)
        else (lit1, false, r3)
      | [] => (lit1, false, r3)
    let (lit3, isBig, r5) :=
      match r4 with
      | 'n' :: r4' => (lit2 ++ ['n'], true, r4')
      | _ => (lit2, false, r4)
    let lit := String.mk lit3
    if isBig then
      -- BigInt(literal) throws on a dot or exponent, aborting tokenization
      if hasDot || hasExp then none
      else some (lit, ConstVal.cbig (Int.ofNat (decDigitsVal lit2)), r5)
    else if hasDot || hasExp then
      some (lit, ConstVal.cfloat lit, r5)
    else
      some (lit, ConstVal.cint (Int.ofNat (decDigitsVal lit2)), r5)

/-- Body of a quoted string: runs of non-quote non-backslash characters or
backslash-escaped characters, up to the closing quote. -/
def matchStringBody (q : Char) : Nat → List Char → Option (List Char × List Char)
  | _, [] => none
  | 0, _ => none
  | f + 1, c :: cs =>
    if c = q then some ([], cs)
    else if c = backslash then
      match cs with
      | d :: cs' => do
        let (body, rest) ← matchStringBody q f cs'
        some (c :: d :: body, rest)
      | [] => none
    else do
      let (body, rest) ← matchStringBody q f cs
      some (c :: body, rest)

/-- One global replace of the two-character sequence a b by the character
rep, left to right, non-overlapping. -/
def replacePairCh (a b rep : Char) : List Char → List Char
  | [] => []
  | [x] => [x]
  | x :: y :: r =>
    if x = a && y = b then rep :: replacePairCh a b rep r
    else x :: replacePairCh a b rep (y :: r)
termination_by cs => cs.length

/-- The source unescapes with two sequential global replaces: first
backslash-quote to quote, then double-backslash to single. -/
def unescapeStringBody (q : Char) (body : List Char) : List Char :=
  replacePairCh backslash backslash backslash (replacePairCh backslash q q body)

def matchStringLit (q : Char) (cs : List Char) : Option (String × ConstVal × List Char) :=
  match cs with
  | c :: cs' =>
    if c = q then
      match matchStringBody q (cs'.length + 1) cs' with
      | some (body, rest) =>
        some (String.mk (q :: body ++ [q]),
              ConstVal.cstr (String.mk (unescapeStringBody q body)), rest)
      | none => none
    else none
  | [] => none

/-- Unicode ID_Start approximated: ASCII letters, dollar, underscore, and
every code point outside ASCII (the inputs exercised stay in this range). -/
def isIdStartCh (c : Char) : Bool :=
  c.isAlpha || c = '$' || c = '_' || 128 ≤ c.toNat

def isIdContCh (c : Char) : Bool := isIdStartCh c || c.isDigit

def matchIdentifier (cs : List Char) : Option (String × List Char) :=
  match cs with
  | c :: cs' =>
    if isIdStartCh c then
      some (String.mk (c :: cs'.takeWhile isIdContCh), cs'.dropWhile isIdContCh)
    else none
  | [] => none

/-- One step of the scanning loop: recognizes, in the priority order of the
source, a whitespace run, a punctuation character, an operator, a numeric
constant, a string constant, or an identifier; `none` is the
TokenizingError case. -/
def scanStep {α : Type} (cs : List Char) : Option (Token α × List Char) :=
  if cs.takeWhile isJsWhitespace ≠ [] then
    some (Token.whitespace (String.mk (cs.takeWhile isJsWhitespace)), cs.dropWhile isJsWhitespace)
  else
    match cs with
    | [] => none
    | c :: cs' =>
      if isPunctuationCh c then some (Token.punctuation c, cs')
      else
        match matchOperator cs with
        | some (lit, rest) => some (Token.operator lit, rest)
        | none =>
          match matchNumber cs with
          | some (lit, v, rest) => some (Token.constant lit v, rest)
          | none =>
            match matchStringLit squote cs with
            | some (lit, v, rest) => some (Token.constant lit v, rest)
            | none =>
              match matchStringLit dquote cs with
              | some (lit, v, rest) => some (Token.constant lit v, rest)
              | none =>
                match matchIdentifier cs with
                | some (lit, rest) => some (Token.identifier lit, rest)
                | none => none

/-- The scanning loop.  Whitespace tokens are dropped when ignoreWs is set
(the default of the source constructor).  Every recognized token consumes at
least one character, so fuel equal to the length of the input suffices. -/
def scanAll {α : Type} : Nat → Bool → List Char → Option (List (Token α))
  | _, _, [] => some []
  | 0, _, _ :: _ => none
  | f + 1, iw, c :: cs =>
    match scanStep (α := α) (c :: cs) with
    | none => none
    | some (t, rest) => do
      let ts ← scanAll f iw rest
      match t with
      | Token.whitespace lit => some (if iw then ts else Token.whitespace lit :: ts)
      | _ => some (t :: ts)

/-- Tokenize one raw source fragment: pre-expand unicode escapes, then scan. -/
def tokenizeFragment {α : Type} (s : String) : Option (List (Token α)) := do
  let cs ← parseUnicodeEscapes s.toList
  scanAll (cs.length + 1) true cs

/-- The loop of the template overload of Tokenizer.tokenize: for each
embedded value, the matching fragment is tokenized and the embedded-value
token appended.  Indexing a missing fragment is the host out-of-bounds
crash, modeled as `none`. -/
def tokenizeZip {α : Type} : List String → List α → Option (List (Token α))
  | _, [] => some []
  | f :: fs, v :: vs => do
    let ts ← tokenizeFragment f
    let rest ← tokenizeZip fs vs
    some (ts ++ Token.embedded v :: rest)
  | [], _ :: _ => none

/-- Tokenizer.tokenize on a template: the interleaving loop followed by the
tokens of the last fragment (raw.at(-1)). -/
def tokenize {α : Type} (frags : List String) (vals : List α) : Option (List (Token α)) := do
  let init ← tokenizeZip frags vals
  let lastFrag ← frags.getLast?
  let lastToks ← tokenizeFragment lastFrag
  some (init ++ lastToks)

/-- The embedded host values of a token stream, in order. -/
def embeddedValues {α : Type} (ts : List (Token α)) : List α :=
  ts.filterMap fun t =>
    match t with
    | Token.embedded v => some v
    | _ => none

/-- Whether a token is an embedded-value token. -/
def isEmbeddedTok {α : Type} : Token α → Bool
  | Token.embedded _ => true
  | _ => false

/-- The claim-side description of the template token stream: the tokens of
consecutive fragments with the corresponding embedded-value token inserted
between them. -/
def interleaveEmbedded {α : Type} : List (List (Token α)) → List α → List (Token α)
  | [], _ => []
  | [l], [] => l
  | l :: ls, v :: vs => l ++ Token.embedded v :: interleaveEmbedded ls vs
  | l :: _ :: _, [] => l

end Tokenizer

namespace Operations

/-- Precedence of a binary operation name (OPERATION_REGISTRY); `none` for
names that are not binary operations. -/
def binPrecedence : String → Option Nat
  | "||" => some 1
  | "&&" => some 2
  | "|" => some 3
  | "^" => some 4
  | "&" => some 5
  | "==" => some 6
  | "===" => some 6
  | "!=" => some 6
  | "!==" => some 6
  | "<" => some 7
  | ">" => some 7
  | "<=" => some 7
  | ">=" => some 7
  | "<<" => some 8
  | ">>" => some 8
  | ">>>" => some 8
  | "+" => some 9
  | "-" => some 9
  | "*" => some 10
  | "/" => some 10
  | "%" => some 10
  | "**" => some 11
  | _ => none

/-- Precedence of a unary operation name; all four are 10. -/
def unaryPrecedence : String → Option Nat
  | "!" => some 10
  | "~" => some 10
  | "-x" => some 10
  | "+x" => some 10
  | _ => none

/-- OPERATOR_LITERAL_TO_NAME_MAP, binary side: every binary operation name
equals its display literal. -/
def binaryFromLiteral (lit : String) : Option String :=
  match binPrecedence lit with
  | some _ => some lit
  | none => none

/-- OPERATOR_LITERAL_TO_NAME_MAP, unary side: minus and plus map to the
dedicated names -x and +x. -/
def unaryFromLiteral : String → Option String
  | "!" => some "!"
  | "~" => some "~"
  | "-" => some "-x"
  | "+" => some "+x"
  | _ => none

end Operations

/-- JS truthiness on embedded values.  Opaque floats and host structures are
unexercised by the verified inputs and default to true. -/
def jsTruthy : Value → Bool
  | Value.vnum n => n != 0
  | Value.vbig n => n != 0
  | Value.vstr s => s != ("")
  | Value.vbool b => b
  | Value.vnull => false
  | Value.vundefined => false
  | _ => true

/-- Wrap to a signed 32-bit integer (JS ToInt32). -/
def toInt32 (n : Int) : Int := (n + 2 ^ 31).emod (2 ^ 32) - 2 ^ 31

/-- Wrap to an unsigned 32-bit integer (JS ToUint32). -/
def toUint32 (n : Int) : Int := n.emod (2 ^ 32)

/-- JS strict equality on the embedded values; `none` where the embedding
keeps the host value opaque. -/
def jsStrictEq : Value → Value → Option Bool
  | Value.vnum a, Value.vnum b => some (a == b)
  | Value.vbig a, Value.vbig b => some (a == b)
  | Value.vstr a, Value.vstr b => some (a == b)
  | Value.vbool a, Value.vbool b => some (a == b)
  | Value.vnull, Value.vnull => some true
  | Value.vundefined, Value.vundefined => some true
  | Value.vobj a, Value.vobj b => some (a == b)
  | Value.vfun a, Value.vfun b => some (a == b)
  | Value.vfloat _, _ => none
  | _, Value.vfloat _ => none
  | Value.vopaque _, _ => none
  | _, Value.vopaque _ => none
  | Value.vslices _, _ => none
  | _, Value.vslices _ => none
  | _, _ => some false

/-- JS loose equality restricted to the cases the embedding models:
same-type comparisons behave like strict equality, null and undefined are
mutually equal, number-to-bigint compares values. -/
def jsLooseEq : Value → Value → Option Bool
  | Value.vnull, Value.vundefined => some true
  | Value.vundefined, Value.vnull => some true
  | Value.vnum a, Value.vbig b => some (a == b)
  | Value.vbig a, Value.vnum b => some (a == b)
  | Value.vnum _, Value.vstr _ => none
  | Value.vstr _, Value.vnum _ => none
  | Value.vbool _, Value.vnum _ => none
  | Value.vnum _, Value.vbool _ => none
  | a, b => jsStrictEq a b

/-- The native fallbacks of the binary entries of OPERATION_REGISTRY, each a
host one-liner (self op other), on embedded values.  Host results outside
the integral model (float division, coercions of unmodeled operands) are
opaque. -/
def nativeBinary (op : String) (l r : Value) : Value :=
  match op, l, r with
  | "||", _, _ => if jsTruthy l then l else r
  | "&&", _, _ => if jsTruthy l then r else l
  | "+", Value.vnum a, Value.vnum b => Value.vnum (a + b)
  | "+", Value.vbig a, Value.vbig b => Value.vbig (a + b)
  | "+", Value.vstr a, Value.vstr b => Value.vstr (a ++ b)
  | "-", Value.vnum a, Value.vnum b => Value.vnum (a - b)
  | "-", Value.vbig a, Value.vbig b => Value.vbig (a - b)
  | "*", Value.vnum a, Value.vnum b => Value.vnum (a * b)
  | "*", Value.vbig a, Value.vbig b => Value.vbig (a * b)
  | "/", Value.vnum a, Value.vnum b =>
    if b != 0 && a.tmod b == 0 then Value.vnum (a.tdiv b) else Value.vopaque ("/")
  | "%", Value.vnum a, Value.vnum b =>
    if b != 0 then Value.vnum (a.tmod b) else Value.vopaque ("%")
  | "**", Value.vnum a, Value.vnum b =>
    if 0 ≤ b then Value.vnum (a ^ b.toNat) else Value.vopaque ("**")
  | "<<", Value.vnum a, Value.vnum b =>
    Value.vnum (toInt32 (toInt32 a * 2 ^ ((toUint32 b).toNat % 32)))
  | ">>", Value.vnum a, Value.vnum b =>
    Value.vnum ((toInt32 a).fdiv (2 ^ ((toUint32 b).toNat % 32)))
  | ">>>", Value.vnum a, Value.vnum b =>
    Value.vnum ((toUint32 a).fdiv (2 ^ ((toUint32 b).toNat % 32)))
  | "&", Value.vnum a, Value.vnum b =>
    Value.vnum (toInt32 (Int.ofNat ((toUint32 a).toNat &&& (toUint32 b).toNat)))
  | "|", Value.vnum a, Value.vnum b =>
    Value.vnum (toInt32 (Int.ofNat ((toUint32 a).toNat ||| (toUint32 b).toNat)))
  | "^", Value.vnum a, Value.vnum b =>
    Value.vnum (toInt32 (Int.ofNat ((toUint32 a).toNat ^^^ (toUint32 b).toNat)))
  | "<", Value.vnum a, Value.vnum b => Value.vbool (decide (a < b))
  | ">", Value.vnum a, Value.vnum b => Value.vbool (decide (b < a))
  | "<=", Value.vnum a, Value.vnum b => Value.vbool (decide (a ≤ b))
  | ">=", Value.vnum a, Value.vnum b => Value.vbool (decide (b ≤ a))
  | "<", Value.vstr a, Value.vstr b => Value.vbool (decide (a < b))
  | ">", Value.vstr a, Value.vstr b => Value.vbool (decide (b < a))
  | "<=", Value.vstr a, Value.vstr b => Value.vbool (decide (a ≤ b))
  | ">=", Value.vstr a, Value.vstr b => Value.vbool (decide (b ≤ a))
  | "==", a, b =>
    match jsLooseEq a b with
    | some x => Value.vbool x
    | none => Value.vopaque ("==")
  | "!=", a, b =>
    match jsLooseEq a b with
    | some x => Value.vbool (!x)
    | none => Value.vopaque ("!=")
  | "===", a, b =>
    match jsStrictEq a b with
    | some x => Value.vbool x
    | none => Value.vopaque ("===")
  | "!==", a, b =>
    match jsStrictEq a b with
    | some x => Value.vbool (!x)
    | none => Value.vopaque ("!==")
  | _, _, _ => Value.vopaque op

/-- The native fallbacks of the four unary entries of OPERATION_REGISTRY. -/
def nativeUnary (op : String) (v : Value) : Value :=
  match op, v with
  | "!", _ => Value.vbool (!jsTruthy v)
  | "~", Value.vnum a => Value.vnum (-(toInt32 a) - 1)
  | "-x", Value.vnum a => Value.vnum (-a)
  | "-x", Value.vbig a => Value.vbig (-a)
  | "+x", Value.vnum a => Value.vnum a
  | "+x", Value.vbool b => Value.vnum (if b then 1 else 0)
  | "+x", Value.vnull => Value.vnum 0
  | _, _ => Value.vopaque op

mutual
/-- Expression nodes (AstNode.ts).  A value node keeps its originating
token; a slicing node holds the ordered dimensions, each with optional
start, end and step sub-expressions. -/
inductive AstNode where
  | value (token : Token Value)
  | identifier (name : String)
  | unary (operation : String) (operand : AstNode)
  | binary (left : AstNode) (operation : String) (right : AstNode)
  | accessProperty (left : AstNode) (name : String)
  | invoke (target : AstNode) (args : List AstNode)
  | indexing (target : AstNode) (index : AstNode)
  | slicing (target : AstNode) (slices : List NodeSlice)
inductive NodeSlice where
  | mk (startE : Option AstNode) (endE : Option AstNode) (stepE : Option AstNode)
end

abbrev Tok := Token Value

namespace AstParser

def skipWS : List Tok → List Tok
  | Token.whitespace _ :: ts => skipWS ts
  | ts => ts

/-- Error used for the fuel-exhaustion case of the parsing loops; the fuel
passed by `parse` dominates the number of parser steps on any input, so this
case is never reached from the public entry point. -/
def fuelMsg : String := "parser fuel exhausted"

/-- Assign a parsed sub-expression to the slot selected by the number of
colons seen so far; slots beyond the third are written into the host array
and dropped when the slice record is built. -/
def setSlot (s0 s1 s2 : Option AstNode) (colons : Nat) (e : AstNode) :
    Option AstNode × Option AstNode × Option AstNode :=
  match colons with
  | 0 => (some e, s1, s2)
  | 1 => (s0, some e, s2)
  | 2 => (s0, s1, some e)
  | _ => (s0, s1, s2)

/-- A dimension is kept only when it contains at least one expression or
colon. -/
def mkDim (s0 s1 s2 : Option AstNode) (colons : Nat) (hasExp : Bool) : Option NodeSlice :=
  if hasExp || 0 < colons then some (NodeSlice.mk s0 s1 s2) else none

/-- The decision at the end of the subscript loop (AstParser lines 218-237):
empty dimension list fails; a colon or comma seen, or several dimensions,
give Slicing; a single dimension with only start defined gives Indexing;
any other single dimension gives Slicing. -/
def subscriptFinish (left : AstNode) (slices : List NodeSlice) (isSlicing : Bool) :
    Except String AstNode :=
  if slices.length = 0 then Except.error ("Empty indexing or slicing expression")
  else if isSlicing || 1 < slices.length then Except.ok (AstNode.slicing left slices)
  else
    match slices with
    | [NodeSlice.mk (some s) none none] => Except.ok (AstNode.indexing left s)
    | _ => Except.ok (AstNode.slicing left slices)

mutual

def parseExpression : Nat → Nat → List Tok → Except String (AstNode × List Tok)
  | 0, _, _ => Except.error fuelMsg
  | f + 1, prec, ts => do
    let (l, ts') ← parseAtom f ts
    parseLoop f prec l ts'

def parseAtom : Nat → List Tok → Except String (AstNode × List Tok)
  | 0, _ => Except.error fuelMsg
  | f + 1, ts =>
    match skipWS ts with
    | [] => Except.error ("Unexpected end of expression")
    | t :: rest =>
      match t with
      | Token.embedded v => Except.ok (AstNode.value (Token.embedded v), rest)
      | Token.constant lit cv => Except.ok (AstNode.value (Token.constant lit cv), rest)
      | Token.identifier name => Except.ok (AstNode.identifier name, rest)
      | Token.operator lit =>
        match Operations.unaryFromLiteral lit with
        | none => Except.error (("Unexpected operator: ") ++ lit)
        | some op =>
          match Operations.unaryPrecedence op with
          | none => Except.error ("Never!")
          | some p => do
            let (operand, ts') ← parseExpression f p rest
            Except.ok (AstNode.unary op operand, ts')
      | Token.punctuation c =>
        if c = '(' then do
          let (e, ts') ← parseExpression f 0 rest
          match skipWS ts' with
          | Token.punctuation ')' :: ts'' => Except.ok (e, ts'')
          | _ => Except.error ("Expected closing parenthesis")
        else Except.error ("Unexpected punctuation")
      | Token.whitespace _ => Except.error ("Unexpected whitespace token")

def parseLoop : Nat → Nat → AstNode → List Tok → Except String (AstNode × List Tok)
  | 0, _, _, _ => Except.error fuelMsg
  | f + 1, prec, left, ts0 =>
    match skipWS ts0 with
    | [] => Except.ok (left, [])
    | t :: rest =>
      match t with
      | Token.operator lit =>
        match Operations.binaryFromLiteral lit with
        | none => Except.error ("Unexpected token, binary operator expected")
        | some op =>
          match Operations.binPrecedence op with
          | none => Except.error ("Never!")
          | some p =>
            if p < prec then Except.ok (left, t :: rest)
            else do
              let (r, ts') ← parseExpression f (if op = ("**") then p else p + 1) rest
              parseLoop f prec (AstNode.binary left op r) ts'
      | Token.punctuation c =>
        if c = '.' then
          match skipWS rest with
          | Token.identifier name :: ts2 =>
            parseLoop f prec (AstNode.accessProperty left name) ts2
          | _ => Except.error ("Expected identifier after dot")
        else if c = '(' then do
          let (args, ts') ← parseArgs f rest
          parseLoop f prec (AstNode.invoke left args) ts'
        else if c = '[' then
          match skipWS rest with
          | Token.punctuation ']' :: _ => Except.error ("Empty subscript is not allowed")
          | ts1 => do
            let (node, ts') ← parseSubscriptLoop f left [] false ts1
            parseLoop f prec node ts'
        else Except.ok (left, t :: rest)
      | _ => Except.ok (left, t :: rest)

def parseArgs : Nat → List Tok → Except String (List AstNode × List Tok)
  | 0, _ => Except.error fuelMsg
  | f + 1, ts =>
    match skipWS ts with
    | Token.punctuation ')' :: rest => Except.ok ([], rest)
    | ts1 => do
      let (a, ts2) ← parseExpression f 0 ts1
      let ts3 := skipWS ts2
      let ts4 :=
        match ts3 with
        | Token.punctuation ',' :: r => r
        | _ => ts3
      let (rest, ts5) ← parseArgs f ts4
      Except.ok (a :: rest, ts5)

def parseOneDim : Nat → List Tok → Option AstNode → Option AstNode → Option AstNode →
    Nat → Bool → Except String ((Option NodeSlice × Nat) × List Tok)
  | 0, _, _, _, _, _, _ => Except.error fuelMsg
  | f + 1, ts, s0, s1, s2, colons, hasExp =>
    match ts with
    | Token.punctuation ',' :: _ => Except.ok ((mkDim s0 s1 s2 colons hasExp, colons), ts)
    | Token.punctuation ']' :: _ => Except.ok ((mkDim s0 s1 s2 colons hasExp, colons), ts)
    | Token.punctuation ':' :: rest => parseOneDim f rest s0 s1 s2 (colons + 1) hasExp
    | _ => do
      let (e, ts') ← parseExpression f 0 ts
      let (s0', s1', s2') := setSlot s0 s1 s2 colons e
      parseOneDim f ts' s0' s1' s2' colons true

def parseSubscriptLoop : Nat → AstNode → List NodeSlice → Bool → List Tok →
    Except String (AstNode × List Tok)
  | 0, _, _, _, _ => Except.error fuelMsg
  | f + 1, left, slices, isSlicing, ts => do
    let ts1 := skipWS ts
    let ((dim, colons), ts2) ← parseOneDim f ts1 none none none 0 false
    let slices' := slices ++ dim.toList
    let isS := isSlicing || 0 < colons
    match skipWS ts2 with
    | Token.punctuation ',' :: rest => parseSubscriptLoop f left slices' true rest
    | Token.punctuation ']' :: rest => do
      let node ← subscriptFinish left slices' isS
      Except.ok (node, rest)
    | ts3 => parseSubscriptLoop f left slices' isS ts3

end

/-- AstParser.parse: skip whitespace, fail on empty input, parse one
expression, fail on trailing tokens.  The fuel dominates the number of
parser steps on every input reachable from the tokenizer. -/
def parse (ts : List Tok) : Except String AstNode :=
  match skipWS ts with
  | [] => Except.error ("Empty expression")
  | ts1 => do
    let (n, rest) ← parseExpression (4 * ts.length + 16) 0 ts1
    match skipWS rest with
    | [] => Except.ok n
    | _ => Except.error ("Unexpected token at end of expression")

end AstParser

/-- Decoded constant-token value as a runtime value. -/
def constToValue : ConstVal → Value
  | ConstVal.cint n => Value.vnum n
  | ConstVal.cbig n => Value.vbig n
  | ConstVal.cfloat lit => Value.vfloat lit
  | ConstVal.cstr s => Value.vstr s

/-- JS ToPropertyKey on embedded values (approximate on the opaque
constructors, which no verified input reaches). -/
def jsKeyString : Value → String
  | Value.vstr s => s
  | Value.vnum n => toString n
  | Value.vbig n => toString n
  | Value.vbool b => if b then ("true") else ("false")
  | Value.vnull => ("null")
  | Value.vundefined => ("undefined")
  | Value.vfloat lit => lit
  | Value.vobj _ => ("object")
  | Value.vfun _ => ("function")
  | Value.vopaque t => t
  | Value.vslices _ => ("object")

/-- Observable events of an evaluation: invocation of a host function with
the receiver it was called on, or entry into a native operation fallback.
Side effects of user-supplied functions are visible through `call`. -/
inductive Ev where
  | call (fid : Nat) (recv : Value) (args : List Value)
  | native (op : String) (l : Value) (r : Value)
  | nativeUn (op : String) (v : Value)
deriving Repr

/-- Evaluation context: the engine bindings, the engine overload lookup
(rop.getOverloadOnInstance, keyed here by value and operation tag), and the
host heap (functions and object properties by id). -/
structure Env where
  bindings : List (String × Value)
  overload : Value → String → Option Nat
  fns : Nat → Value → List Value → Value
  objProps : Nat → String → Option Value

def lookupBinding : List (String × Value) → String → Option Value
  | [], _ => none
  | (k, v) :: rest, key => if k = key then some v else lookupBinding rest key

/-- JS property read target[key]: throws on null/undefined, looks up the
property map of an object, and yields undefined on primitives (whose
built-in prototype properties the embedding does not model). -/
def propGet (env : Env) (target : Value) (key : String) : Except String Value :=
  match target with
  | Value.vnull => Except.error ("Cannot read properties of null")
  | Value.vundefined => Except.error ("Cannot read properties of undefined")
  | Value.vobj id => Except.ok ((env.objProps id key).getD Value.vundefined)
  | _ => Except.ok Value.vundefined

namespace Evaluater

mutual

/-- Evaluater.evaluateNode, returning the value together with the ordered
trace of observable events. -/
def evaluateNode (env : Env) : AstNode → Except String (Value × List Ev)
  | AstNode.value t =>
    match t with
    | Token.embedded v => Except.ok (v, [])
    | Token.constant _ cv => Except.ok (constToValue cv, [])
    | _ => Except.error ("Unknown value token type")
  | AstNode.identifier name =>
    match lookupBinding env.bindings name with
    | some v => Except.ok (v, [])
    | none => Except.error (("Unknown identifier: ") ++ name)
  | AstNode.unary op operand => do
    let (ov, t1) ← evaluateNode env operand
    match Operations.unaryPrecedence op with
    | none => Except.error ("Invalid node")
    | some _ =>
      match env.overload ov op with
      | some fid => Except.ok (env.fns fid ov [], t1 ++ [Ev.call fid ov []])
      | none => Except.ok (nativeUnary op ov, t1 ++ [Ev.nativeUn op ov])
  | AstNode.binary l op r => do
    let (lv, t1) ← evaluateNode env l
    let (rv, t2) ← evaluateNode env r
    match Operations.binPrecedence op with
    | none => Except.error ("Invalid node")
    | some _ =>
      match env.overload lv op with
      | some fid => Except.ok (env.fns fid lv [rv], t1 ++ t2 ++ [Ev.call fid lv [rv]])
      | none =>
        match env.overload rv op with
        | some fid => Except.ok (env.fns fid rv [lv], t1 ++ t2 ++ [Ev.call fid rv [lv]])
        | none =>
          Except.ok (nativeBinary op lv rv, t1 ++ t2 ++ [Ev.native op lv rv])
  | AstNode.accessProperty l name => do
    let (lv, t1) ← evaluateNode env l
    let v ← propGet env lv name
    Except.ok (v, t1)
  | AstNode.invoke target args => do
    let (tv, t1) ← evaluateNode env target
    let (vs, t2) ← evaluateArgs env args
    match tv with
    | Value.vfun fid =>
      Except.ok (env.fns fid Value.vundefined vs, t1 ++ t2 ++ [Ev.call fid Value.vundefined vs])
    | _ => Except.error ("Cannot invoke non-function")
  | AstNode.indexing target idx => do
    let (tv, t1) ← evaluateNode env target
    match env.overload tv ("[i]") with
    | some fid => do
      let (iv, t2) ← evaluateNode env idx
      Except.ok (env.fns fid tv [iv], t1 ++ t2 ++ [Ev.call fid tv [iv]])
    | none => do
      let (iv, t2) ← evaluateNode env idx
      let v ← propGet env tv (jsKeyString iv)
      Except.ok (v, t1 ++ t2)
  | AstNode.slicing target slices => do
    let (tv, t1) ← evaluateNode env target
    match env.overload tv ("[:]") with
    | some fid => do
      let (dims, t2) ← evaluateSlices env slices
      Except.ok (env.fns fid tv [Value.vslices dims], t1 ++ t2 ++ [Ev.call fid tv [Value.vslices dims]])
    | none =>
      match slices with
      | [NodeSlice.mk s0 e0 st0] =>
        if e0.isSome || st0.isSome then
          Except.error ("Target does not support slicing with end or step")
        else do
          let (k, t2) ← evaluateOpt env s0
          let v ← propGet env tv (jsKeyString (k.getD Value.vundefined))
          Except.ok (v, t1 ++ t2)
      | _ => Except.error ("Target does not support slicing")

/-- Left-to-right evaluation of an argument list (node.args.map). -/
def evaluateArgs (env : Env) : List AstNode → Except String (List Value × List Ev)
  | [] => Except.ok ([], [])
  | a :: rest => do
    let (v, t1) ← evaluateNode env a
    let (vs, t2) ← evaluateArgs env rest
    Except.ok (v :: vs, t1 ++ t2)

/-- Evaluater.calculateSlice over a dimension list: each defined
sub-expression is evaluated eagerly, start then end then step. -/
def evaluateSlices (env : Env) : List NodeSlice →
    Except String (List (Option Value × Option Value × Option Value) × List Ev)
  | [] => Except.ok ([], [])
  | NodeSlice.mk s0 e0 st0 :: rest => do
    let (sv, t1) ← evaluateOpt env s0
    let (ev, t2) ← evaluateOpt env e0
    let (stv, t3) ← evaluateOpt env st0
    let (ds, t4) ← evaluateSlices env rest
    Except.ok ((sv, ev, stv) :: ds, t1 ++ t2 ++ t3 ++ t4)

def evaluateOpt (env : Env) : Option AstNode → Except String (Option Value × List Ev)
  | none => Except.ok (none, [])
  | some a => do
    let (v, t) ← evaluateNode env a
    Except.ok (some v, t)

end

end Evaluater

/-- The full pipeline of Rop.o on a plain source string: tokenize, parse,
evaluate. -/
def ropRun (env : Env) (s : String) : Except String Value :=
  match (Tokenizer.tokenizeFragment s : Option (List Tok)) with
  | none => Except.error ("TokenizingError")
  | some ts => do
    let ast ← AstParser.parse ts
    let (v, _) ← Evaluater.evaluateNode env ast
    Except.ok v

/-- An environment with no bindings, no overloads and an empty host heap. -/
def env0 : Env where
  bindings := []
  overload := fun _ _ => none
  fns := fun _ _ _ => Value.vundefined
  objProps := fun _ _ => none

/-- A property that a prototype object declares on itself under an
operation tag: whether it is callable, and which host function it is. -/
structure HostProp where
  callable : Bool
  fn : Nat
deriving DecidableEq, Repr

/-- JS property resolution p[symbol] along a prototype chain: the nearest
own occurrence wins; `symbol in p` holds exactly when this returns some. -/
def resolveProp (own : Nat → Option HostProp) : List Nat → Option HostProp
  | [] => none
  | p :: rest =>
    match own p with
    | some hp => some hp
    | none => resolveProp own rest

/-- Rop.getOverloadFromPrototypeChain: walk the chain; at each prototype
first consult the engine overload table, then the host property lookup
(which by JS `in` semantics sees properties inherited from every higher
prototype); a found but non-callable property falls through to the parent.
The chain is passed explicitly (it is finite, ending at the root). -/
def getOverloadFromPrototypeChain (table : Nat → Option Nat) (own : Nat → Option HostProp) :
    List Nat → Option Nat
  | [] => none
  | p :: rest =>
    match table p with
    | some f => some f
    | none =>
      match resolveProp own (p :: rest) with
      | some hp =>
        if hp.callable then some hp.fn
        else getOverloadFromPrototypeChain table own rest
      | none => getOverloadFromPrototypeChain table own rest

/-- The resolution procedure as the specification words it: at each
prototype, first the engine table for that prototype, then a callable own
property of that prototype itself, then the parent.  Stated only to compare
with the source translation above. -/
def specChainResolve (table : Nat → Option Nat) (own : Nat → Option HostProp) :
    List Nat → Option Nat
  | [] => none
  | p :: rest =>
    match table p with
    | some f => some f
    | none =>
      match own p with
      | some hp => if hp.callable then some hp.fn else specChainResolve table own rest
      | none => specChainResolve table own rest

/-- utils.normalizeIndex: a negative index counts back from the end. -/
def normalizeIndex (index len : Int) : Int := if index < 0 then index + len else index

/-- JS read this[i] on an array: undefined outside the index range. -/
def elemAt (l : List Value) (i : Int) : Value :=
  if i < 0 then Value.vundefined else l.getD i.toNat Value.vundefined

/-- The ascending enumeration loop of the default slicing overload
(for i = start; i < end; i += step).  The loop advances by at least one per
iteration for every positive step, so the fuel passed by arraySlice
dominates the iteration count. -/
def sliceLoopUp (l : List Value) : Nat → Int → Int → Int → List Value
  | 0, _, _, _ => []
  | f + 1, i, e, st => if i < e then elemAt l i :: sliceLoopUp l f (i + st) e st else []

/-- The descending enumeration loop (for i = start; i > end; i += step). -/
def sliceLoopDown (l : List Value) : Nat → Int → Int → Int → List Value
  | 0, _, _, _ => []
  | f + 1, i, e, st => if e < i then elemAt l i :: sliceLoopDown l f (i + st) e st else []

/-- The default Array [:] overload installed by overloadDefaults: exactly
one dimension; step defaults to 1 and must not be zero; start and end
default by the sign of step and wrap when negative. -/
def arraySlice (l : List Value) (slices : List (Option Int × Option Int × Option Int)) :
    Except String (List Value) :=
  match slices with
  | [(s, e, st)] =>
    if st = some 0 then Except.error ("Slice step cannot be zero")
    else
      let stv := st.getD 1
      if 0 < stv then
        let sv := match s with | none => 0 | some v => normalizeIndex v l.length
        let ev := match e with | none => (l.length : Int) | some v => normalizeIndex v l.length
        Except.ok (sliceLoopUp l ((ev - sv).toNat + 1) sv ev stv)
      else
        let sv := match s with | none => (l.length : Int) - 1 | some v => normalizeIndex v l.length
        let ev := match e with | none => -1 | some v => normalizeIndex v l.length
        Except.ok (sliceLoopDown l ((sv - ev).toNat + 1) sv ev stv)
  | _ => Except.error ("Multi slice is not supported")

/-- The enumeration the specification describes: i = start, start+step, ...
while i < end (positive step) or while i > end (negative step). -/
def pySliceIdx (s e st : Int) : List Int :=
  if _h1 : 0 < st then
    if s < e then s :: pySliceIdx (s + st) e st else []
  else if _h2 : st < 0 then
    if e < s then s :: pySliceIdx (s + st) e st else []
  else []
termination_by ((if 0 < st then e - s else s - e)).toNat
decreasing_by
  all_goals simp_wf
  all_goals split_ifs
  all_goals omega

/-- JS Map.set on an association list: update in place, append when new. -/
def setAssoc (m : List (String × Value)) (k : String) (v : Value) : List (String × Value) :=
  match m with
  | [] => [(k, v)]
  | (k', v') :: rest => if k' = k then (k', v) :: rest else (k', v') :: setAssoc rest k v

def setAssocN (m : List (String × Nat)) (k : String) (v : Nat) : List (String × Nat) :=
  match m with
  | [] => [(k, v)]
  | (k', v') :: rest => if k' = k then (k', v) :: rest else (k', v') :: setAssocN rest k v

/-- Rop.setOverload on the two-level overload map: create the inner map for
a new prototype, then set the tag entry.  (The function-shape adaptation of
the source stores an equivalent receiver-bound host function; the table
shape is unchanged.) -/
def setOverloadEntry (m : List (Nat × List (String × Nat))) (proto : Nat) (tag : String)
    (fid : Nat) : List (Nat × List (String × Nat)) :=
  match m with
  | [] => [(proto, setAssocN [] tag fid)]
  | (p, inner) :: rest =>
    if p = proto then (p, setAssocN inner tag fid) :: rest
    else (p, inner) :: setOverloadEntry rest proto tag fid

/-- The engine class Rop: an overload table keyed by prototype identity and
a binding table, both insertion-ordered. -/
structure Rop where
  overloadings : List (Nat × List (String × Nat))
  bindings : List (String × Value)
deriving Repr

/-- new Rop(): empty tables. -/
def Rop.new : Rop := { overloadings := [], bindings := [] }

def Rop.bind (r : Rop) (k : String) (v : Value) : Rop :=
  { r with bindings := setAssoc r.bindings k v }

def Rop.bindAll (r : Rop) (ps : List (String × Value)) : Rop :=
  ps.foldl (fun r p => r.bind p.1 p.2) r

/-- The identifiers bound by Rop.bindDefaults; host globals are opaque. -/
def defaultBindings : List (String × Value) :=
  [("true", Value.vbool true), ("false", Value.vbool false), ("null", Value.vnull),
   ("undefined", Value.vundefined), ("Infinity", Value.vopaque ("Infinity")),
   ("NaN", Value.vopaque ("NaN")), ("Object", Value.vopaque ("Object")),
   ("Number", Value.vopaque ("Number")), ("BigInt", Value.vopaque ("BigInt")),
   ("String", Value.vopaque ("String")), ("Boolean", Value.vopaque ("Boolean")),
   ("Array", Value.vopaque ("Array")), ("Date", Value.vopaque ("Date")),
   ("Symbol", Value.vopaque ("Symbol")), ("JSON", Value.vopaque ("JSON")),
   ("Math", Value.vobj 100)]

def Rop.bindDefaults (r : Rop) : Rop := r.bindAll defaultBindings

/-- The own properties of the host Math object (a representative list; the
host environment fixes the exact set, which no claim depends on). -/
def mathBindings : List (String × Value) :=
  [("abs", Value.vfun 800), ("ceil", Value.vfun 801), ("floor", Value.vfun 802),
   ("max", Value.vfun 803), ("min", Value.vfun 804), ("pow", Value.vfun 805),
   ("round", Value.vfun 806), ("sign", Value.vfun 807), ("sqrt", Value.vfun 808),
   ("sin", Value.vfun 809), ("cos", Value.vfun 810), ("tan", Value.vfun 811),
   ("E", Value.vfloat ("2.718281828459045")), ("PI", Value.vfloat ("3.141592653589793")),
   ("LN2", Value.vfloat ("0.6931471805599453")), ("SQRT2", Value.vfloat ("1.4142135623730951"))]

def Rop.bindMaths (r : Rop) : Rop := r.bindAll mathBindings

/-- Prototype ids of the built-in classes and host-function ids of the
default overload implementations. -/
def arrayProtoId : Nat := 0

def stringProtoId : Nat := 1

def setProtoId : Nat := 2

def Rop.overloadDefaults (r : Rop) : Rop :=
  { r with overloadings :=
      [ (arrayProtoId, ("+"), 900), (arrayProtoId, ("[i]"), 901), (arrayProtoId, ("[:]"), 902),
        (stringProtoId, ("*"), 903),
        (setProtoId, ("+"), 904), (setProtoId, ("-"), 905)
      ].foldl (fun m e => setOverloadEntry m e.1 e.2.1 e.2.2) r.overloadings }

/-- new Rop().bindDefaults().bindMaths().overloadDefaults(): the state of a
freshly constructed default instance. -/
def defaultRop : Rop := ((Rop.new.bindDefaults).bindMaths).overloadDefaults

/-- The mutable world of the static singleton: the private static field
Rop.instance, together with the heap of user-created engine objects (which
the static accessors never touch). -/
structure EngineWorld where
  instanceField : Option Rop
  engines : List Rop

/-- Rop.resetDefaultInstance: assigns undefined to the static field. -/
def resetDefaultInstance (w : EngineWorld) : EngineWorld :=
  { w with instanceField := none }

/-- The static getter Rop.INST: lazily constructs the default instance. -/
def getINST (w : EngineWorld) : Rop × EngineWorld :=
  match w.instanceField with
  | some r => (r, w)
  | none => (defaultRop, { w with instanceField := some defaultRop })

/-- Tokenize-then-parse on a plain source string. -/
def parseSource (s : String) : Except String AstNode :=
  match (Tokenizer.tokenizeFragment s : Option (List Tok)) with
  | none => Except.error ("TokenizingError")
  | some ts => AstParser.parse ts

/-- A family of subscript dimensions over numeric sub-expressions: a lone
index expression, or up to three optional parts separated by one or two
colons. -/
inductive DimD where
  | idx (n : Int)
  | col1 (s e : Option Int)
  | col2 (s e st : Option Int)

def numTok (n : Int) : Tok := Token.constant (toString n) (ConstVal.cint n)

def numNode (n : Int) : AstNode := AstNode.value (numTok n)

def optToks : Option Int → List Tok
  | none => []
  | some n => [numTok n]

/-- The token text of one dimension. -/
def dimToks : DimD → List Tok
  | DimD.idx n => [numTok n]
  | DimD.col1 s e => optToks s ++ Token.punctuation ':' :: optToks e
  | DimD.col2 s e st =>
    optToks s ++ Token.punctuation ':' :: (optToks e ++ Token.punctuation ':' :: optToks st)

/-- The token text of a comma-separated dimension list. -/
def dimsToks : List DimD → List Tok
  | [] => []
  | [d] => dimToks d
  | d :: rest => dimToks d ++ Token.punctuation ',' :: dimsToks rest

def dimHasColon : DimD → Bool
  | DimD.idx _ => false
  | _ => true

def dimColons : DimD → Nat
  | DimD.idx _ => 0
  | DimD.col1 _ _ => 1
  | DimD.col2 _ _ _ => 2

/-- The slice record the parser builds for one dimension of the family. -/
def dimSlice : DimD → NodeSlice
  | DimD.idx n => NodeSlice.mk (some (numNode n)) none none
  | DimD.col1 s e => NodeSlice.mk (s.map numNode) (e.map numNode) none
  | DimD.col2 s e st => NodeSlice.mk (s.map numNode) (e.map numNode) (st.map numNode)

/-- The value of the parser's isSlicing flag after consuming a dimension
list: a comma between dimensions forces it, otherwise a colon in the
dimension does. -/
def dimsSlicingFlag (isS : Bool) : List DimD → Bool
  | [] => isS
  | [d] => isS || dimHasColon d
  | _ :: rest => dimsSlicingFlag true rest

/-- Concrete binary node for the short-circuit counterexample: the left
operand is the host value false, the right operand invokes the embedded
host function 7. -/
def c2node : AstNode :=
  AstNode.binary (AstNode.value (Token.embedded (Value.vbool false))) ("&&")
    (AstNode.invoke (AstNode.value (Token.embedded (Value.vfun 7))) [])

/-- Concrete slicing node for the no-overload slicing counterexample: the
host object 0 subscripted with one all-undefined dimension, as produced by
the source text x[:]. -/
def c5node : AstNode :=
  AstNode.slicing (AstNode.value (Token.embedded (Value.vobj 0)))
    [NodeSlice.mk none none none]

/-- Engine overload table for the chain-walk counterexample: one entry,
registered on prototype 1. -/
def cexTable : Nat → Option Nat := fun p => if p = 1 then some 100 else none

/-- Host own properties for the chain-walk counterexample: prototype 2
declares the tag as a callable property. -/
def cexOwn : Nat → Option HostProp := fun p => if p = 2 then some ⟨true, 200⟩ else none

/-- Host heap for the detached-invocation witness: object 0 has a method m,
host function 3, which returns its receiver. -/
def envRecv : Env :=
  { env0 with
    objProps := fun id key => if id = 0 && key = ("m") then some (Value.vfun 3) else none,
    fns := fun fid recv _ => if fid = 3 then recv else Value.vnull }

/-- An environment whose only overload is host function 5 for * on the
host number 1, used to exercise the dispatch order at a concrete input. -/
def envDispatch : Env :=
  { env0 with
    overload := fun v op =>
      match v, op with
      | Value.vnum 1, "*" => some 5
      | _, _ => none,
    fns := fun fid recv args => Value.vslices [(some (Value.vnum fid), some recv, args.head?)] }

----------------------------------------------------------------
-- Theorems
----------------------------------------------------------------

/-- Monadic bind of an ok result, as a rewriting step. -/
theorem exceptOkBind {A B : Type} (a : A) (f : A → Except String B) :
    (Except.ok a >>= f : Except String B) = f a := rfl

/-- Monadic bind of a some result, as a rewriting step. -/
theorem optSomeBind {A B : Type} (a : A) (f : A → Option B) :
    (some a >>= f : Option B) = f a := rfl

namespace Tokenizer

/-- One scanner step never emits an embedded-value token. -/
theorem scanStep_not_embedded {α : Type} {cs : List Char} {t : Token α} {r : List Char}
    (h : scanStep cs = some (t, r)) : isEmbeddedTok t = false := by
  unfold scanStep at h
  repeat' split at h
  all_goals (try simp only [Option.some.injEq, Prod.mk.injEq] at h)
  all_goals
    (first
      | (obtain ⟨h1, h2⟩ := h; subst h1; simp [isEmbeddedTok])
      | simp_all [isEmbeddedTok])

theorem embeddedValues_nil {α : Type} : embeddedValues ([] : List (Token α)) = [] := rfl

theorem embeddedValues_cons_not {α : Type} (t : Token α) (ts : List (Token α))
    (h : isEmbeddedTok t = false) : embeddedValues (t :: ts) = embeddedValues ts := by
  cases t <;> simp_all [embeddedValues, isEmbeddedTok]

theorem embeddedValues_append {α : Type} (ts us : List (Token α)) :
    embeddedValues (ts ++ us) = embeddedValues ts ++ embeddedValues us := by
  simp [embeddedValues]

/-- The scanning loop never emits an embedded-value token. -/
theorem scanAll_no_embedded {α : Type} :
    ∀ (f : Nat) (iw : Bool) (cs : List Char) (ts : List (Token α)),
      scanAll f iw cs = some ts → embeddedValues ts = [] := by
  intro f
  induction f with
  | zero =>
    intro iw cs ts h
    cases cs with
    | nil =>
      simp [scanAll] at h
      simp [h, embeddedValues]
    | cons c cs' => simp [scanAll] at h
  | succ f ih =>
    intro iw cs ts h
    cases cs with
    | nil =>
      simp [scanAll] at h
      simp [h, embeddedValues]
    | cons c cs' =>
      rw [scanAll] at h
      cases hs : scanStep (α := α) (c :: cs') with
      | none => rw [hs] at h; simp at h
      | some p =>
        rw [hs] at h
        obtain ⟨tok, rest⟩ := p
        have htok := scanStep_not_embedded hs
        cases hrec : scanAll (α := α) f iw rest with
        | none => simp [hrec] at h
        | some ts' =>
          have hts' := ih iw rest ts' hrec
          simp only [hrec, Option.some_bind, Option.bind_eq_bind] at h
          cases tok with
          | whitespace lit =>
            simp only [Option.some.injEq] at h
            cases iw with
            | true =>
              simp at h
              subst h
              exact hts'
            | false =>
              simp at h
              rw [← h, embeddedValues_cons_not _ _ (by simp [isEmbeddedTok])]
              exact hts'
          | embedded v => simp [isEmbeddedTok] at htok
          | operator lit =>
            simp only [Option.some.injEq] at h
            rw [← h, embeddedValues_cons_not _ _ (by simp [isEmbeddedTok])]
            exact hts'
          | constant lit v =>
            simp only [Option.some.injEq] at h
            rw [← h, embeddedValues_cons_not _ _ (by simp [isEmbeddedTok])]
            exact hts'
          | identifier lit =>
            simp only [Option.some.injEq] at h
            rw [← h, embeddedValues_cons_not _ _ (by simp [isEmbeddedTok])]
            exact hts'
          | punctuation lit =>
            simp only [Option.some.injEq] at h
            rw [← h, embeddedValues_cons_not _ _ (by simp [isEmbeddedTok])]
            exact hts'

/-- Tokenizing a raw fragment never yields an embedded-value token. -/
theorem tokenizeFragment_no_embedded {α : Type} (s : String) (ts : List (Token α))
    (h : tokenizeFragment s = some ts) : embeddedValues ts = [] := by
  unfold tokenizeFragment at h
  cases hu : parseUnicodeEscapes s.toList with
  | none => rw [hu] at h; simp at h
  | some cs =>
    rw [hu] at h
    simp only [Option.bind_eq_bind, Option.some_bind] at h
    exact scanAll_no_embedded _ _ _ _ h

/-- One step of the template loop of Tokenizer.tokenize. -/
theorem tokenize_cons {α : Type} (f : String) (fs : List String) (v : α) (vs : List α)
    (hfs : fs ≠ []) :
    tokenize (f :: fs) (v :: vs) =
      (do
        let l ← tokenizeFragment f
        let rest ← tokenize fs vs
        some (l ++ Token.embedded v :: rest)) := by
  unfold tokenize
  rw [show tokenizeZip (f :: fs) (v :: vs) =
      (do
        let l ← tokenizeFragment (α := α) f
        let rest ← tokenizeZip fs vs
        some (l ++ Token.embedded v :: rest)) from rfl]
  cases fs with
  | nil => exact absurd rfl hfs
  | cons f2 fs2 =>
    rw [List.getLast?_cons_cons]
    cases tokenizeFragment (α := α) f with
    | none => rfl
    | some l =>
      simp only [optSomeBind]
      cases tokenizeZip (α := α) (f2 :: fs2) vs with
      | none => rfl
      | some rest =>
        simp only [optSomeBind]
        cases (f2 :: fs2).getLast? with
        | none => rfl
        | some lastFrag =>
          simp only [optSomeBind]
          cases tokenizeFragment (α := α) lastFrag with
          | none => rfl
          | some lt => simp [optSomeBind, List.append_assoc]

end Tokenizer

/-- Claim C1: for a tagged-template invocation with fragments f0..fn and
embedded values v0..v(n-1) whose fragments all tokenize, the tokenizer
succeeds and inserts between the tokens of consecutive fragments an
Embedded token carrying exactly the corresponding host value, so the
embedded values of the output stream are exactly v0..v(n-1), by value
identity (the value type is an arbitrary type parameter). -/
theorem c1_template_embeds_values {α : Type} :
    ∀ (vals : List α) (frags : List String) (fls : List (List (Token α))),
      frags.length = vals.length + 1 →
      frags.mapM Tokenizer.tokenizeFragment = some fls →
      Tokenizer.tokenize frags vals = some (Tokenizer.interleaveEmbedded fls vals) ∧
        Tokenizer.embeddedValues (Tokenizer.interleaveEmbedded fls vals) = vals := by
  intro vals
  induction vals with
  | nil =>
    intro frags fls hlen hmap
    cases frags with
    | nil => simp at hlen
    | cons f fs =>
      have hfs : fs = [] := by
        have : fs.length = 0 := by simpa using hlen
        simpa [List.length_eq_zero] using this
      subst hfs
      simp only [List.mapM_cons, List.mapM_nil] at hmap
      cases hf : Tokenizer.tokenizeFragment (α := α) f with
      | none => rw [hf] at hmap; simp at hmap
      | some l =>
        rw [hf] at hmap
        simp at hmap
        subst hmap
        constructor
        · unfold Tokenizer.tokenize
          simp [Tokenizer.tokenizeZip, optSomeBind, hf, Tokenizer.interleaveEmbedded]
        · simpa [Tokenizer.interleaveEmbedded] using
            Tokenizer.tokenizeFragment_no_embedded f l hf
  | cons v vs ih =>
    intro frags fls hlen hmap
    cases frags with
    | nil => simp at hlen
    | cons f fs =>
      have hfslen : fs.length = vs.length + 1 := by simpa using hlen
      have hfs : fs ≠ [] := by
        cases fs
        · simp at hfslen
        · simp
      simp only [List.mapM_cons] at hmap
      cases hf : Tokenizer.tokenizeFragment (α := α) f with
      | none => rw [hf] at hmap; simp at hmap
      | some l =>
        rw [hf] at hmap
        cases hrest : fs.mapM (Tokenizer.tokenizeFragment (α := α)) with
        | none => rw [hrest] at hmap; simp at hmap
        | some fls' =>
          rw [hrest] at hmap
          simp at hmap
          subst hmap
          obtain ⟨ih1, ih2⟩ := ih fs fls' hfslen hrest
          constructor
          · rw [Tokenizer.tokenize_cons f fs v vs hfs, hf]
            simp only [optSomeBind]
            rw [ih1]
            simp only [optSomeBind]
            rw [show Tokenizer.interleaveEmbedded (l :: fls') (v :: vs) =
                l ++ Token.embedded v :: Tokenizer.interleaveEmbedded fls' vs by
              cases fls' <;> rfl]
          · rw [show Tokenizer.interleaveEmbedded (l :: fls') (v :: vs) =
                l ++ Token.embedded v :: Tokenizer.interleaveEmbedded fls' vs by
              cases fls' <;> rfl]
            rw [Tokenizer.embeddedValues_append]
            rw [Tokenizer.tokenizeFragment_no_embedded f l hf]
            simp only [List.nil_append]
            rw [show Tokenizer.embeddedValues
                (Token.embedded v :: Tokenizer.interleaveEmbedded fls' vs) =
                v :: Tokenizer.embeddedValues (Tokenizer.interleaveEmbedded fls' vs) from rfl]
            rw [ih2]

/-- Witness for C1 at a concrete template: fragments ["1 + ", ""] with the
embedded value 42. -/
theorem c1_witness :
    Tokenizer.tokenize ["1 + ", ""] [(42 : Nat)] =
        some (Tokenizer.interleaveEmbedded
          [[Token.constant ("1") (ConstVal.cint 1), Token.operator ("+")], []] [42]) ∧
      Tokenizer.embeddedValues (Tokenizer.interleaveEmbedded
        [[Token.constant ("1") (ConstVal.cint 1), Token.operator ("+")], []] [42]) = [42] :=
  c1_template_embeds_values [(42 : Nat)] ["1 + ", ""]
    [[Token.constant ("1") (ConstVal.cint 1), Token.operator ("+")], []] rfl rfl

/-- The native fallback of the logical-and entry, on arbitrary values. -/
theorem nativeBinary_and (l r : Value) : nativeBinary ("&&") l r = if jsTruthy l then r else l := rfl

/-- The native fallback of the logical-or entry, on arbitrary values. -/
theorem nativeBinary_or (l r : Value) : nativeBinary ("||") l r = if jsTruthy l then l else r := rfl

/-- Claim C2, counterexample: in the expression false && f() with the host
function f embedded as function 7, the left operand is falsy, yet the
evaluation trace contains the invocation of function 7: the right operand
is evaluated, so the claimed short-circuit behaviour does not hold.  (The
resulting value still equals the left operand, as JS && would produce.) -/
theorem c2_counterexample :
    Evaluater.evaluateNode env0 c2node =
      Except.ok (Value.vbool false,
        [Ev.call 7 Value.vundefined [],
         Ev.native ("&&") (Value.vbool false) Value.vundefined]) := rfl

/-- Claim C2 (amended): the binary operations && and || evaluate both
operands unconditionally — the right operand's trace always occurs — and,
when no overload applies, return the truthiness selection of the evaluated
values (a && b yields b when a is truthy, else a; a || b yields a when a is
truthy, else b). -/
theorem c2_logical_ops_eager (env : Env) (a b : AstNode) (op : String)
    (va vb : Value) (ta tb : List Ev)
    (hop : op = ("&&") ∨ op = ("||"))
    (ha : Evaluater.evaluateNode env a = Except.ok (va, ta))
    (hb : Evaluater.evaluateNode env b = Except.ok (vb, tb))
    (hoL : env.overload va op = none) (hoR : env.overload vb op = none) :
    Evaluater.evaluateNode env (AstNode.binary a op b) =
      Except.ok
        ((if jsTruthy va then (if op = ("&&") then vb else va)
          else (if op = ("&&") then va else vb)),
         ta ++ tb ++ [Ev.native op va vb]) := by
  rcases hop with rfl | rfl <;>
    cases hv : jsTruthy va <;>
      · rw [Evaluater.evaluateNode.eq_def]
        simp [ha, hb, hoL, hoR, Operations.binPrecedence,
          nativeBinary_and, nativeBinary_or, hv, exceptOkBind]

/-- Witness for C2 at a concrete input: true && 5 with no overloads. -/
theorem c2_witness :
    Evaluater.evaluateNode env0
        (AstNode.binary (AstNode.value (Token.embedded (Value.vbool true))) ("&&")
          (AstNode.value (Token.embedded (Value.vnum 5)))) =
      Except.ok (Value.vnum 5,
        [Ev.native ("&&") (Value.vbool true) (Value.vnum 5)]) :=
  c2_logical_ops_eager env0 (AstNode.value (Token.embedded (Value.vbool true)))
    (AstNode.value (Token.embedded (Value.vnum 5))) ("&&") (Value.vbool true) (Value.vnum 5)
    [] [] (Or.inl rfl) rfl rfl rfl rfl

/-- Claim C3: binary dispatch tries the left operand's overload, then the
right operand's with swapped operands, then the native fallback, in that
order, and exactly one alternative runs, exactly once: the dispatch
segment of the trace is a single event determined by the two lookups. -/
theorem c3_binary_dispatch (env : Env) (l r : AstNode) (op : String) (p : Nat)
    (lv rv : Value) (tl tr : List Ev)
    (hbin : Operations.binPrecedence op = some p)
    (hl : Evaluater.evaluateNode env l = Except.ok (lv, tl))
    (hr : Evaluater.evaluateNode env r = Except.ok (rv, tr)) :
    (∀ fid, env.overload lv op = some fid →
        Evaluater.evaluateNode env (AstNode.binary l op r) =
          Except.ok (env.fns fid lv [rv], tl ++ tr ++ [Ev.call fid lv [rv]]))
  ∧ (∀ fid, env.overload lv op = none → env.overload rv op = some fid →
        Evaluater.evaluateNode env (AstNode.binary l op r) =
          Except.ok (env.fns fid rv [lv], tl ++ tr ++ [Ev.call fid rv [lv]]))
  ∧ (env.overload lv op = none → env.overload rv op = none →
        Evaluater.evaluateNode env (AstNode.binary l op r) =
          Except.ok (nativeBinary op lv rv, tl ++ tr ++ [Ev.native op lv rv])) := by
  refine ⟨?_, ?_, ?_⟩
  · intro fid hov
    rw [Evaluater.evaluateNode.eq_def]
    simp [hl, hr, hbin, hov, exceptOkBind]
  · intro fid hov1 hov2
    rw [Evaluater.evaluateNode.eq_def]
    simp [hl, hr, hbin, hov1, hov2, exceptOkBind]
  · intro hov1 hov2
    rw [Evaluater.evaluateNode.eq_def]
    simp [hl, hr, hbin, hov1, hov2, exceptOkBind]

/-- Witness for C3 at a concrete input: 1 * 2 where the class of the host
number 1 has an overload (function 5). -/
theorem c3_witness :
    Evaluater.evaluateNode envDispatch
        (AstNode.binary (AstNode.value (Token.embedded (Value.vnum 1))) ("*")
          (AstNode.value (Token.embedded (Value.vnum 2)))) =
      Except.ok
        (Value.vslices [(some (Value.vnum 5), some (Value.vnum 1), some (Value.vnum 2))],
         [Ev.call 5 (Value.vnum 1) [Value.vnum 2]]) :=
  (c3_binary_dispatch envDispatch (AstNode.value (Token.embedded (Value.vnum 1)))
    (AstNode.value (Token.embedded (Value.vnum 2))) ("*") 10 (Value.vnum 1) (Value.vnum 2)
    [] [] rfl rfl rfl).1 5 rfl

/-- Helper: JS property resolution along a chain misses when every own
table is empty at the tag. -/
theorem resolveProp_none (own : Nat → Option HostProp) :
    ∀ chain : List Nat, (∀ q ∈ chain, own q = none) →
      resolveProp own chain = none := by
  intro chain h
  induction chain with
  | nil => rfl
  | cons p rest ih =>
    have hp := h p (List.mem_cons_self p rest)
    have hr : ∀ q ∈ rest, own q = none := fun q hq => h q (List.mem_cons_of_mem p hq)
    simp [resolveProp, hp, ih hr]

/-- Helper: the chain walk reports no overload when both the engine table
and the host properties miss everywhere on the chain. -/
theorem chain_all_none (table : Nat → Option Nat) (own : Nat → Option HostProp) :
    ∀ chain : List Nat, (∀ q ∈ chain, table q = none ∧ own q = none) →
      getOverloadFromPrototypeChain table own chain = none := by
  intro chain h
  induction chain with
  | nil => rfl
  | cons p rest ih =>
    have hp := h p (List.mem_cons_self p rest)
    have hr : ∀ q ∈ rest, table q = none ∧ own q = none :=
      fun q hq => h q (List.mem_cons_of_mem p hq)
    have hres : resolveProp own (p :: rest) = none :=
      resolveProp_none own (p :: rest) (by
        intro q hq
        rcases List.mem_cons.mp hq with h1 | h2
        · exact h1 ▸ hp.2
        · exact (hr q h2).2)
    simp [getOverloadFromPrototypeChain, hp.1, hres, ih hr]

/-- Claim C4, counterexample: on the chain 0 → 1 → 2, with an engine-table
entry (function 100) registered on prototype 1 and a callable property
(function 200) declared on the higher prototype 2, the source walk returns
the inherited property 200 — the host in-lookup at the nearest prototype
sees the whole chain — while the walk the specification describes returns
the table entry 100.  An inherited property beats an engine-table entry
registered on a higher prototype, contradicting the claim. -/
theorem c4_counterexample :
    getOverloadFromPrototypeChain cexTable cexOwn [0, 1, 2] = some 200 ∧
    specChainResolve cexTable cexOwn [0, 1, 2] = some 100 ∧ (200 : Nat) ≠ 100 :=
  ⟨rfl, rfl, by decide⟩

/-- Claim C4 (amended): at the head prototype the engine table is consulted
first; when it misses, the host property lookup — which sees callable
properties inherited from every higher prototype — wins over engine-table
entries registered deeper in the chain; when the chain ends with both the
table and the properties missing everywhere, no overload is reported. -/
theorem c4_chain_lookup (table : Nat → Option Nat) (own : Nat → Option HostProp)
    (p : Nat) (rest : List Nat) :
    (∀ f, table p = some f →
        getOverloadFromPrototypeChain table own (p :: rest) = some f)
  ∧ (∀ f, table p = none → resolveProp own (p :: rest) = some ⟨true, f⟩ →
        getOverloadFromPrototypeChain table own (p :: rest) = some f)
  ∧ ((∀ q ∈ p :: rest, table q = none ∧ own q = none) →
        getOverloadFromPrototypeChain table own (p :: rest) = none) := by
  refine ⟨?_, ?_, ?_⟩
  · intro f hf
    simp [getOverloadFromPrototypeChain, hf]
  · intro f hf hprop
    simp [getOverloadFromPrototypeChain, hf, hprop]
  · intro h
    exact chain_all_none table own (p :: rest) h

/-- Witness for C4 at the counterexample chain: the table entry on
prototype 1 misses at the head, and the callable property resolved from
prototype 2 is returned. -/
theorem c4_witness :
    getOverloadFromPrototypeChain cexTable cexOwn (0 :: [1, 2]) = some 200 :=
  (c4_chain_lookup cexTable cexOwn 0 [1, 2]).2.1 200 rfl rfl

/-- Claim C5, counterexample: slicing the host object 0 (which has no [:]
overload) with the single all-undefined dimension produced by the source
text x[:] succeeds with the value undefined — the evaluator reads the
property keyed by undefined — where the claim requires the failure
"target does not support slicing". -/
theorem c5_counterexample :
    Evaluater.evaluateNode env0 c5node = Except.ok (Value.vundefined, []) := rfl

/-- Claim C5 (amended): with no [:] overload on the evaluated target,
slicing fails with "Target does not support slicing" when there are zero
or several dimensions; a single dimension with end or step defined fails
with "Target does not support slicing with end or step"; a single
dimension with only start (or nothing) defined succeeds, degenerating to a
property access keyed by the evaluated start (undefined when absent). -/
theorem c5_no_overload_slicing (env : Env) (tgt : AstNode) (tv : Value) (tt : List Ev)
    (ht : Evaluater.evaluateNode env tgt = Except.ok (tv, tt))
    (hov : env.overload tv ("[:]") = none) :
    (Evaluater.evaluateNode env (AstNode.slicing tgt []) =
        Except.error ("Target does not support slicing"))
  ∧ (∀ s1 s2 rest, Evaluater.evaluateNode env (AstNode.slicing tgt (s1 :: s2 :: rest)) =
        Except.error ("Target does not support slicing"))
  ∧ (∀ s0 e0 st0, e0.isSome || st0.isSome →
        Evaluater.evaluateNode env (AstNode.slicing tgt [NodeSlice.mk s0 e0 st0]) =
          Except.error ("Target does not support slicing with end or step"))
  ∧ (∀ a av ta, Evaluater.evaluateNode env a = Except.ok (av, ta) →
        Evaluater.evaluateNode env (AstNode.slicing tgt [NodeSlice.mk (some a) none none]) =
          (do
            let v ← propGet env tv (jsKeyString av)
            Except.ok (v, tt ++ ta)))
  ∧ (Evaluater.evaluateNode env (AstNode.slicing tgt [NodeSlice.mk none none none]) =
        (do
          let v ← propGet env tv (jsKeyString Value.vundefined)
          Except.ok (v, tt))) := by
  refine ⟨?_, ?_, ?_, ?_, ?_⟩
  · rw [Evaluater.evaluateNode.eq_def]
    simp [ht, hov, exceptOkBind]
  · intro s1 s2 rest
    rw [Evaluater.evaluateNode.eq_def]
    simp [ht, hov, exceptOkBind]
  · intro s0 e0 st0 hse
    rw [Evaluater.evaluateNode.eq_def]
    simp [ht, hov, hse, exceptOkBind]
  · intro a av ta hav
    rw [Evaluater.evaluateNode.eq_def]
    simp [ht, hov, hav, Evaluater.evaluateOpt, exceptOkBind]
  · rw [Evaluater.evaluateNode.eq_def]
    simp [ht, hov, Evaluater.evaluateOpt, exceptOkBind]

/-- Witness for C5 at a concrete input: slicing the host object 0 with two
dimensions fails with the claimed message. -/
theorem c5_witness :
    Evaluater.evaluateNode env0
        (AstNode.slicing (AstNode.value (Token.embedded (Value.vobj 0)))
          [NodeSlice.mk none none none, NodeSlice.mk none none none]) =
      Except.error ("Target does not support slicing") :=
  (c5_no_overload_slicing env0 (AstNode.value (Token.embedded (Value.vobj 0)))
    (Value.vobj 0) [] rfl rfl).2.1 (NodeSlice.mk none none none) (NodeSlice.mk none none none) []

/-- Claim C10: an Invoke node evaluates the callee, then the arguments in
order (their traces concatenate in order), and calls the callee as a
detached function: the receiver slot of the call event is undefined, not
the object a property-access callee was read from. -/
theorem c10_invoke_detached (env : Env) (tgt : AstNode) (args : List AstNode) (fid : Nat)
    (tt ta : List Ev) (vs : List Value)
    (htgt : Evaluater.evaluateNode env tgt = Except.ok (Value.vfun fid, tt))
    (hargs : Evaluater.evaluateArgs env args = Except.ok (vs, ta)) :
    Evaluater.evaluateNode env (AstNode.invoke tgt args) =
      Except.ok (env.fns fid Value.vundefined vs,
        tt ++ ta ++ [Ev.call fid Value.vundefined vs]) := by
  rw [Evaluater.evaluateNode.eq_def]
  simp [htgt, hargs, exceptOkBind]

/-- Witness for C10 at a concrete input: obj.m() where host object 0 has a
method m (function 3) that returns its receiver; the call returns
undefined, not the object, because no receiver is bound. -/
theorem c10_witness :
    Evaluater.evaluateNode envRecv
        (AstNode.invoke
          (AstNode.accessProperty (AstNode.value (Token.embedded (Value.vobj 0))) ("m")) []) =
      Except.ok (Value.vundefined, [Ev.call 3 Value.vundefined []]) :=
  c10_invoke_detached envRecv
    (AstNode.accessProperty (AstNode.value (Token.embedded (Value.vobj 0))) ("m"))
    [] 3 [] [] [] rfl rfl

/-- Claim C9: resetting the process-wide singleton clears the static
instance field, so the next access constructs a fresh default instance
(the state of new Rop().bindDefaults().bindMaths().overloadDefaults(),
whose binding and overload tables hold exactly the defaults), and the
reset leaves every user-created engine in the heap unchanged. -/
theorem c9_reset_default_instance (w : EngineWorld) :
    (getINST (resetDefaultInstance w)).1 = defaultRop ∧
      (resetDefaultInstance w).engines = w.engines ∧
      defaultRop = ((Rop.new.bindDefaults).bindMaths).overloadDefaults :=
  ⟨rfl, rfl, rfl⟩

/-- Helper: the ascending enumeration loop with sufficient fuel equals the
specified enumeration i = start, start+step, ... while i < end. -/
theorem sliceLoopUp_eq (l : List Value) :
    ∀ (n : Nat) (i e st : Int), 0 < st → (e - i).toNat ≤ n →
      sliceLoopUp l n i e st = (pySliceIdx i e st).map (elemAt l) := by
  intro n
  induction n with
  | zero =>
    intro i e st hst hle
    have hni : ¬ i < e := by omega
    rw [pySliceIdx]
    simp [sliceLoopUp, hst, hni]
  | succ n ih =>
    intro i e st hst hle
    rw [pySliceIdx]
    by_cases h : i < e
    · rw [show sliceLoopUp l (n + 1) i e st = elemAt l i :: sliceLoopUp l n (i + st) e st by
        simp [sliceLoopUp, h]]
      rw [ih (i + st) e st hst (by omega)]
      simp [hst, h]
    · simp [sliceLoopUp, hst, h]

/-- Helper: the descending enumeration loop with sufficient fuel equals the
specified enumeration i = start, start+step, ... while i > end. -/
theorem sliceLoopDown_eq (l : List Value) :
    ∀ (n : Nat) (i e st : Int), st < 0 → (i - e).toNat ≤ n →
      sliceLoopDown l n i e st = (pySliceIdx i e st).map (elemAt l) := by
  intro n
  induction n with
  | zero =>
    intro i e st hst hle
    have hni : ¬ e < i := by omega
    rw [pySliceIdx]
    simp [sliceLoopDown, show ¬ 0 < st by omega, hst, hni]
  | succ n ih =>
    intro i e st hst hle
    rw [pySliceIdx]
    by_cases h : e < i
    · rw [show sliceLoopDown l (n + 1) i e st = elemAt l i :: sliceLoopDown l n (i + st) e st by
        simp [sliceLoopDown, h]]
      rw [ih (i + st) e st hst (by omega)]
      simp [show ¬ 0 < st by omega, hst, h]
    · simp [sliceLoopDown, show ¬ 0 < st by omega, hst, h]

/-- Claim C6: the default Array [:] overload rejects zero or several
dimensions with "Multi slice is not supported" and a zero step with
"Slice step cannot be zero"; step defaults to 1; with positive step, start
defaults to 0 and end to the length, negative indices wrap by adding the
length, and the elements are read at i = start, start+step, ... while
i < end; with negative step, start defaults to length − 1 and end to the
exclusive sentinel −1, negative indices wrap, and the elements are read at
i = start, start+step, ... while i > end. -/
theorem c6_array_slice_defaults (l : List Value) (s e st : Option Int) :
    (arraySlice l [] = Except.error ("Multi slice is not supported"))
  ∧ (∀ d1 d2 rest, arraySlice l (d1 :: d2 :: rest) =
        Except.error ("Multi slice is not supported"))
  ∧ (arraySlice l [(s, e, some 0)] = Except.error ("Slice step cannot be zero"))
  ∧ (∀ stv, (st = some stv ∧ stv ≠ 0) ∨ (st = none ∧ stv = 1) → 0 < stv →
        arraySlice l [(s, e, st)] = Except.ok ((pySliceIdx
          (match s with | none => 0 | some v => normalizeIndex v l.length)
          (match e with | none => (l.length : Int) | some v => normalizeIndex v l.length)
          stv).map (elemAt l)))
  ∧ (∀ stv, st = some stv → stv < 0 →
        arraySlice l [(s, e, st)] = Except.ok ((pySliceIdx
          (match s with | none => (l.length : Int) - 1 | some v => normalizeIndex v l.length)
          (match e with | none => -1 | some v => normalizeIndex v l.length)
          stv).map (elemAt l))) := by
  refine ⟨rfl, fun d1 d2 rest => rfl, by simp [arraySlice], ?_, ?_⟩
  · intro stv hst hpos
    rcases hst with ⟨rfl, hne⟩ | ⟨rfl, rfl⟩
    · simp only [arraySlice]
      rw [if_neg (by simpa using hne)]
      simp only [Option.getD_some]
      rw [if_pos hpos]
      rw [sliceLoopUp_eq l _ _ _ _ hpos (by omega)]
    · simp only [arraySlice]
      rw [if_neg (by simp)]
      simp only [Option.getD_none]
      rw [if_pos hpos]
      rw [sliceLoopUp_eq l _ _ _ _ hpos (by omega)]
  · intro stv rfl_st hneg
    subst rfl_st
    simp only [arraySlice]
    rw [if_neg (by simp; omega)]
    simp only [Option.getD_some]
    rw [if_neg (by omega)]
    rw [sliceLoopDown_eq l _ _ _ _ hneg (by omega)]

/-- Witness for C6 at a concrete input: reversing an eight-element array
with the slice [::-1]. -/
theorem c6_witness :
    arraySlice
        [Value.vnum 1, Value.vnum 2, Value.vnum 3, Value.vnum 4,
         Value.vnum 5, Value.vnum 6, Value.vnum 7, Value.vnum 8]
        [(none, none, some (-1))] =
      Except.ok ((pySliceIdx 7 (-1) (-1)).map (elemAt
        [Value.vnum 1, Value.vnum 2, Value.vnum 3, Value.vnum 4,
         Value.vnum 5, Value.vnum 6, Value.vnum 7, Value.vnum 8])) :=
  (c6_array_slice_defaults
    [Value.vnum 1, Value.vnum 2, Value.vnum 3, Value.vnum 4,
     Value.vnum 5, Value.vnum 6, Value.vnum 7, Value.vnum 8]
    none none (some (-1))).2.2.2.2 (-1) rfl (by decide)

/-- Claim C8: the parsing loop consumes a binary operator exactly when its
precedence is at least the current minimum (otherwise it returns with the
operator unconsumed), parses the right operand at minimum precedence p for
the right-associative ** and p + 1 for every other operator, and
consequently 2 ** 3 ** 2 parses right-associated and evaluates to 512
while (2 ** 3) ** 2 evaluates to 64. -/
theorem c8_precedence_climbing :
    (∀ (f prec : Nat) (left : AstNode) (lit op : String) (p : Nat) (rest : List Tok),
        Operations.binaryFromLiteral lit = some op →
        Operations.binPrecedence op = some p →
        p < prec →
        AstParser.parseLoop (f + 1) prec left (Token.operator lit :: rest) =
          Except.ok (left, Token.operator lit :: rest))
  ∧ (∀ (f prec : Nat) (left : AstNode) (lit op : String) (p : Nat) (rest : List Tok),
        Operations.binaryFromLiteral lit = some op →
        Operations.binPrecedence op = some p →
        prec ≤ p →
        AstParser.parseLoop (f + 1) prec left (Token.operator lit :: rest) =
          (do
            let (r, ts') ← AstParser.parseExpression f (if op = ("**") then p else p + 1) rest
            AstParser.parseLoop f prec (AstNode.binary left op r) ts'))
  ∧ parseSource ("2 ** 3 ** 2") =
      Except.ok (AstNode.binary (numNode 2) ("**") (AstNode.binary (numNode 3) ("**") (numNode 2)))
  ∧ ropRun env0 ("2 ** 3 ** 2") = Except.ok (Value.vnum 512)
  ∧ ropRun env0 ("(2 ** 3) ** 2") = Except.ok (Value.vnum 64) := by
  refine ⟨?_, ?_, ?_, ?_, ?_⟩
  · intro f prec left lit op p rest h1 h2 h3
    rw [AstParser.parseLoop.eq_def]
    simp [AstParser.skipWS, h1, h2, h3, Nat.not_le.mpr h3]
  · intro f prec left lit op p rest h1 h2 h3
    rw [AstParser.parseLoop.eq_def]
    simp [AstParser.skipWS, h1, h2, Nat.not_lt.mpr h3]
  · rfl
  · rfl
  · rfl

/-- Witness for C8 at a concrete input: at minimum precedence 12, the
+ operator (precedence 9) is not consumed. -/
theorem c8_witness :
    AstParser.parseLoop 1 12 (AstNode.identifier ("x")) [Token.operator ("+")] =
      Except.ok (AstNode.identifier ("x"), [Token.operator ("+")]) :=
  (c8_precedence_climbing).1 0 12 (AstNode.identifier ("x")) ("+") ("+") 9 [] rfl rfl
    (by decide)

/-- Helper: parsing one dimension of the numeric family collects its parts
into the slice slots and stops at the closing comma or bracket. -/
theorem parseOneDim_family (d : DimD) (g : Nat) (c : Char) (rest : List Tok)
    (hc : c = ',' ∨ c = ']') :
    AstParser.parseOneDim (g + 8) (dimToks d ++ Token.punctuation c :: rest) none none none 0 false =
      Except.ok ((some (dimSlice d), dimColons d), Token.punctuation c :: rest) := by
  rcases d with n | ⟨s, e⟩ | ⟨s, e, st⟩
  · rcases hc with rfl | rfl <;> rfl
  · rcases s with _ | ns <;> rcases e with _ | ne <;> rcases hc with rfl | rfl <;> rfl
  · rcases s with _ | ns <;> rcases e with _ | ne <;> rcases st with _ | nst <;>
      rcases hc with rfl | rfl <;> rfl

theorem skipWS_dimToks (d : DimD) (ts : List Tok) :
    AstParser.skipWS (dimToks d ++ ts) = dimToks d ++ ts := by
  rcases d with n | ⟨s, e⟩ | ⟨s, e, st⟩
  · rfl
  · rcases s with _ | ns <;> rfl
  · rcases s with _ | ns <;> rfl

theorem dimColons_pos (d : DimD) : decide (0 < dimColons d) = dimHasColon d := by
  rcases d with n | ⟨s, e⟩ | ⟨s, e, st⟩ <;> rfl

/-- Helper: one unfolding of the subscript loop. -/
theorem parseSubscriptLoop_succ (f : Nat) (left : AstNode) (slices : List NodeSlice)
    (isS : Bool) (ts : List Tok) :
    AstParser.parseSubscriptLoop (f + 1) left slices isS ts =
      (do
        let r ← AstParser.parseOneDim f (AstParser.skipWS ts) none none none 0 false
        match r with
        | ((dim, colons), ts2) =>
          match AstParser.skipWS ts2 with
          | Token.punctuation ',' :: rest =>
            AstParser.parseSubscriptLoop f left (slices ++ dim.toList) true rest
          | Token.punctuation ']' :: rest => do
            let node ← AstParser.subscriptFinish left (slices ++ dim.toList)
              (isS || decide (0 < colons))
            Except.ok (node, rest)
          | ts3 =>
            AstParser.parseSubscriptLoop f left (slices ++ dim.toList)
              (isS || decide (0 < colons)) ts3) := rfl

/-- Helper: the subscript loop after a dimension ending at a comma. -/
theorem parseSubscriptLoop_step_comma (f : Nat) (left : AstNode) (slices : List NodeSlice)
    (isS : Bool) (ts : List Tok) (dim : Option NodeSlice) (colons : Nat) (rest' : List Tok)
    (h : AstParser.parseOneDim f (AstParser.skipWS ts) none none none 0 false =
        Except.ok ((dim, colons), Token.punctuation ',' :: rest')) :
    AstParser.parseSubscriptLoop (f + 1) left slices isS ts =
      AstParser.parseSubscriptLoop f left (slices ++ dim.toList) true rest' := by
  rw [parseSubscriptLoop_succ, h]
  rfl

/-- Helper: the subscript loop after a dimension ending at the closing
bracket. -/
theorem parseSubscriptLoop_step_close (f : Nat) (left : AstNode) (slices : List NodeSlice)
    (isS : Bool) (ts : List Tok) (dim : Option NodeSlice) (colons : Nat) (rest' : List Tok)
    (h : AstParser.parseOneDim f (AstParser.skipWS ts) none none none 0 false =
        Except.ok ((dim, colons), Token.punctuation ']' :: rest')) :
    AstParser.parseSubscriptLoop (f + 1) left slices isS ts =
      (do
        let node ← AstParser.subscriptFinish left (slices ++ dim.toList)
          (isS || decide (0 < colons))
        Except.ok (node, rest')) := by
  rw [parseSubscriptLoop_succ, h]
  rfl

/-- Helper: the subscript loop over a whole dimension list of the numeric
family collects the slice records and the slicing flag. -/
theorem parseSubscriptLoop_family :
    ∀ (ds : List DimD) (g : Nat) (left : AstNode) (acc : List NodeSlice) (isS : Bool)
      (rest : List Tok), ds ≠ [] →
      AstParser.parseSubscriptLoop (g + 9 * ds.length) left acc isS
          (dimsToks ds ++ Token.punctuation ']' :: rest) =
        (do
          let node ← AstParser.subscriptFinish left (acc ++ ds.map dimSlice)
            (dimsSlicingFlag isS ds)
          Except.ok (node, rest)) := by
  intro ds
  induction ds with
  | nil => intro g left acc isS rest h; exact absurd rfl h
  | cons d ds ih =>
    intro g left acc isS rest _
    cases ds with
    | nil =>
      have hdim : AstParser.parseOneDim (g + 8)
          (AstParser.skipWS (dimsToks [d] ++ Token.punctuation ']' :: rest)) none none none 0 false =
          Except.ok ((some (dimSlice d), dimColons d), Token.punctuation ']' :: rest) := by
        rw [show dimsToks [d] = dimToks d from rfl, skipWS_dimToks]
        exact parseOneDim_family d g (']') rest (Or.inr rfl)
      rw [show g + 9 * ([d] : List DimD).length = (g + 8) + 1 by simp]
      rw [parseSubscriptLoop_step_close (g + 8) left acc isS _ _ _ _ hdim]
      simp [Option.toList_some, dimColons_pos, dimsSlicingFlag]
    | cons d2 ds2 =>
      have hdim : AstParser.parseOneDim ((g + 9 * (d2 :: ds2).length) + 8)
          (AstParser.skipWS (dimsToks (d :: d2 :: ds2) ++ Token.punctuation ']' :: rest))
          none none none 0 false =
          Except.ok ((some (dimSlice d), dimColons d),
            Token.punctuation ',' :: (dimsToks (d2 :: ds2) ++ Token.punctuation ']' :: rest)) := by
        rw [show dimsToks (d :: d2 :: ds2) =
            dimToks d ++ Token.punctuation ',' :: dimsToks (d2 :: ds2) from rfl]
        rw [List.append_assoc, List.cons_append, skipWS_dimToks]
        exact parseOneDim_family d (g + 9 * (d2 :: ds2).length) (',') _ (Or.inl rfl)
      rw [show g + 9 * ((d :: d2 :: ds2) : List DimD).length =
          ((g + 9 * (d2 :: ds2).length) + 8) + 1 by simp [List.length]; ring]
      rw [parseSubscriptLoop_step_comma ((g + 9 * (d2 :: ds2).length) + 8) left acc isS _ _ _ _ hdim]
      rw [show ((g + 9 * (d2 :: ds2).length) + 8 : Nat) = (g + 8) + 9 * (d2 :: ds2).length by ring]
      rw [ih (g + 8) left (acc ++ (some (dimSlice d)).toList) true rest (by simp)]
      simp [dimsSlicingFlag, List.append_assoc]

theorem dimsSlicingFlag_true : ∀ ds : List DimD, ds ≠ [] → dimsSlicingFlag true ds = true := by
  intro ds
  induction ds with
  | nil => intro h; exact absurd rfl h
  | cons d ds ih =>
    intro _
    cases ds with
    | nil => rfl
    | cons d2 ds2 => exact ih (by simp)

/-- Claim C7, counterexample: the bracket [5,] holds a single comma-free,
colon-free dimension, yet the trailing comma makes the parser produce a
Slicing node, where the claim ("Slicing exactly when some dimension
contains a colon or there is more than one dimension") requires the
Indexing node that [5] produces. -/
theorem c7_counterexample :
    parseSource ("x[5,]") =
        Except.ok (AstNode.slicing (AstNode.identifier ("x"))
          [NodeSlice.mk (some (AstNode.value (Token.constant ("5") (ConstVal.cint 5)))) none none])
  ∧ parseSource ("x[5]") =
        Except.ok (AstNode.indexing (AstNode.identifier ("x"))
          (AstNode.value (Token.constant ("5") (ConstVal.cint 5)))) :=
  ⟨rfl, rfl⟩

/-- Claim C7 (amended): over comma-separated dimensions of index or slice
shape, the parser produces a Slicing node exactly when some dimension
contains a colon or there is more than one dimension — and additionally
whenever a comma was consumed, so a trailing comma after a single
colon-free dimension also yields Slicing; a bracket holding exactly one
comma-free colon-free expression yields Indexing; the subscripts produced
by the source texts x[:] and x[::] are Slicing nodes with one dimension
whose start, end and step are all undefined; and empty brackets fail. -/
theorem c7_subscript_disambiguation :
    (∀ (ds : List DimD) (g : Nat) (left : AstNode) (rest : List Tok), ds ≠ [] →
        AstParser.parseSubscriptLoop (g + 9 * ds.length) left [] false
            (dimsToks ds ++ Token.punctuation ']' :: rest) =
          Except.ok
            ((if ds.any dimHasColon || decide (1 < ds.length) then
                AstNode.slicing left (ds.map dimSlice)
              else
                match ds with
                | [DimD.idx n] => AstNode.indexing left (numNode n)
                | _ => AstNode.slicing left (ds.map dimSlice)), rest))
  ∧ parseSource ("x[:]") =
      Except.ok (AstNode.slicing (AstNode.identifier ("x")) [NodeSlice.mk none none none])
  ∧ parseSource ("x[::]") =
      Except.ok (AstNode.slicing (AstNode.identifier ("x")) [NodeSlice.mk none none none])
  ∧ parseSource ("x[]") = Except.error ("Empty subscript is not allowed")
  ∧ parseSource ("x[5,]") =
      Except.ok (AstNode.slicing (AstNode.identifier ("x"))
        [NodeSlice.mk (some (AstNode.value (Token.constant ("5") (ConstVal.cint 5)))) none none]) := by
  refine ⟨?_, rfl, rfl, rfl, rfl⟩
  intro ds g left rest hne
  rw [parseSubscriptLoop_family ds g left [] false rest hne]
  cases ds with
  | nil => exact absurd rfl hne
  | cons d ds' =>
    cases ds' with
    | nil =>
      rcases d with n | ⟨s, e⟩ | ⟨s, e, st⟩
      · rfl
      · rfl
      · rfl
    | cons d2 ds2 =>
      rw [show dimsSlicingFlag false (d :: d2 :: ds2) = dimsSlicingFlag true (d2 :: ds2) from rfl]
      rw [dimsSlicingFlag_true (d2 :: ds2) (by simp)]
      rw [decide_eq_true (show 1 < (d :: d2 :: ds2).length by simp)]
      simp [AstParser.subscriptFinish, exceptOkBind]

/-- Witness for C7 at a concrete dimension list: an index dimension
followed by an all-undefined slice dimension parses as Slicing. -/
theorem c7_witness :
    AstParser.parseSubscriptLoop (0 + 9 * ([DimD.idx 5, DimD.col1 none none] : List DimD).length)
        (AstNode.identifier ("x")) [] false
        (dimsToks [DimD.idx 5, DimD.col1 none none] ++ Token.punctuation ']' :: []) =
      Except.ok (AstNode.slicing (AstNode.identifier ("x"))
        [NodeSlice.mk (some (numNode 5)) none none, NodeSlice.mk none none none], []) :=
  (c7_subscript_disambiguation).1 [DimD.idx 5, DimD.col1 none none] 0
    (AstNode.identifier ("x")) [] (by simp)

end RopV
